import Mathlib

/-!
Verification of the `wuf` union-find crate (`src/lib.rs`) against its
natural-language specification.

The Rust `Graph` owns two parallel vectors: `nodes` (parent links) and
`sizes` (subtree weights for union-by-size).  We embed the structure and
its three public operations (`new`, `connected`, `connect`) plus the
private `root` as plain Lean functions over `List Nat`, mirroring the
source statement by statement.  Machine `usize` values in this program
are only node indices and sizes, far from overflow, so `Nat` models them
exactly.  Rust's panicking index operator is modelled twice: a total
model using `List.getD _ 0` (used on in-range indices, where it agrees
with Rust), and a checked model returning `Except` whose error carries
the state at the moment of the panic (used for the out-of-bounds claim).
-/

/-- State of the Rust `Graph` struct: `nodes` is the parent array
(`self.nodes` in the source), `sizes` the union-by-size weights. -/
structure Graph where
  nodes : List Nat
  sizes : List Nat
  deriving DecidableEq, Repr

/-- The loop of `Graph::root`, with explicit fuel standing for the
`while` loop.  The source is
```text
let mut root = id;
while root != self.nodes[id] {
    self.nodes[root] = self.nodes[self.nodes[root]];
    root = self.nodes[id];
}
root
```
Note the guard and the update both read `self.nodes[id]` (not
`self.nodes[root]`): since the body ends by assigning
`root = self.nodes[id]`, the guard is false right after every
iteration, so the loop runs at most once; any fuel of at least 2 yields
the loop's exact result (`rootAux_fuel` below). -/
def rootAux (nodes : List Nat) (id root : Nat) : Nat → Nat × List Nat
  | 0 => (root, nodes)
  | fuel + 1 =>
    if root ≠ nodes.getD id 0 then
      let nodes' := nodes.set root (nodes.getD (nodes.getD root 0) 0)
      rootAux nodes' id (nodes'.getD id 0) fuel
    else
      (root, nodes)

/-- `Graph::root` (private): returns the resolved id and the mutated
structure; `sizes` is untouched. -/
def Graph.root (g : Graph) (id : Nat) : Nat × Graph :=
  let p := rootAux g.nodes id id (g.nodes.length + 2)
  (p.1, { nodes := p.2, sizes := g.sizes })

/-- `Graph::connected`: two root resolutions (both mutate), compare. -/
def Graph.connected (g : Graph) (a b : Nat) : Bool × Graph :=
  let p := g.root a
  let q := p.2.root b
  (p.1 == q.1, q.2)

/-- `Graph::connect`: resolve both roots; if distinct, link the root of
the smaller-sized tree under the other and add the sizes. -/
def Graph.connect (g : Graph) (a b : Nat) : Graph :=
  let p := g.root a
  let q := p.2.root b
  if p.1 = q.1 then
    q.2
  else if q.2.sizes.getD p.1 0 < q.2.sizes.getD q.1 0 then
    { nodes := q.2.nodes.set p.1 q.1,
      sizes := q.2.sizes.set q.1 (q.2.sizes.getD q.1 0 + q.2.sizes.getD p.1 0) }
  else
    { nodes := q.2.nodes.set q.1 p.1,
      sizes := q.2.sizes.set p.1 (q.2.sizes.getD p.1 0 + q.2.sizes.getD q.1 0) }

/-- `Graph::new(n)`: `nodes = [0, …, n-1]`, `sizes = [0, …, 0]`. -/
def Graph.new (n : Nat) : Graph :=
  { nodes := List.range n, sizes := List.replicate n 0 }

/-- `Graph::count`. -/
def Graph.count (g : Graph) : Nat :=
  g.nodes.length

/-- States reachable from `Graph.new n` by the public API called on
valid node ids. -/
inductive Reachable (n : Nat) : Graph → Prop where
  | new : Reachable n (Graph.new n)
  | connect {g : Graph} (a b : Nat) :
      Reachable n g → a < n → b < n → Reachable n (g.connect a b)
  | connected {g : Graph} (a b : Nat) :
      Reachable n g → a < n → b < n → Reachable n (g.connected a b).2

/-- Walk the parent chain from `id` for `fuel` steps; `true` iff a
self-parented node (a root, §3 of the spec) is reached.  In an acyclic
parent forest of `n` nodes, fuel `n` decides reachability of a root. -/
def reachesRoot (nodes : List Nat) (id : Nat) : Nat → Bool
  | 0 => false
  | fuel + 1 =>
    if nodes.getD id 0 = id then true else reachesRoot nodes (nodes.getD id 0) fuel

/-- The representative in the spec's sense (§3): follow parent links
until a self-parented node is found, `none` if `fuel` runs out. -/
def specRepr (nodes : List Nat) (id : Nat) : Nat → Option Nat
  | 0 => none
  | fuel + 1 =>
    if nodes.getD id 0 = id then some id else specRepr nodes (nodes.getD id 0) fuel

/-- Number of distinct roots: nodes `i < n` with `parent[i] = i`. -/
def numRoots (g : Graph) : Nat :=
  ((List.range g.nodes.length).filter (fun i => g.nodes.getD i 0 = i)).length

/-- Checked variant of the `Graph::root` loop: every index read is
bounds-checked first, as Rust's panicking `Vec` indexing does, and a
failed check aborts with the parent array as it stands at that moment
(the write to `nodes[root]` happens only after both reads of the
assignment's right-hand side succeed, as in the source). -/
def rootCAux (nodes : List Nat) (id root : Nat) : Nat → Except (List Nat) (Nat × List Nat)
  | 0 => Except.ok (root, nodes)
  | fuel + 1 =>
    if id < nodes.length then
      if root ≠ nodes.getD id 0 then
        if root < nodes.length then
          if nodes.getD root 0 < nodes.length then
            let nodes' := nodes.set root (nodes.getD (nodes.getD root 0) 0)
            rootCAux nodes' id (nodes'.getD id 0) fuel
          else Except.error nodes
        else Except.error nodes
      else Except.ok (root, nodes)
    else Except.error nodes

/-- Checked `Graph::root`: errors carry the whole structure at the
moment of the panic. -/
def rootC (g : Graph) (id : Nat) : Except Graph (Nat × Graph) :=
  match rootCAux g.nodes id id (g.nodes.length + 2) with
  | Except.error s => Except.error { nodes := s, sizes := g.sizes }
  | Except.ok p => Except.ok (p.1, { nodes := p.2, sizes := g.sizes })

/-- Checked `Graph::connected`. -/
def connectedC (g : Graph) (a b : Nat) : Except Graph (Bool × Graph) :=
  match rootC g a with
  | Except.error s => Except.error s
  | Except.ok p =>
    match rootC p.2 b with
    | Except.error s => Except.error s
    | Except.ok q => Except.ok (p.1 == q.1, q.2)

/-- Checked `Graph::connect`: the two `sizes` reads are also
bounds-checked before the branch is taken. -/
def connectC (g : Graph) (a b : Nat) : Except Graph Graph :=
  match rootC g a with
  | Except.error s => Except.error s
  | Except.ok p =>
    match rootC p.2 b with
    | Except.error s => Except.error s
    | Except.ok q =>
      if p.1 = q.1 then Except.ok q.2
      else if p.1 < q.2.sizes.length then
        if q.1 < q.2.sizes.length then
          if q.2.sizes.getD p.1 0 < q.2.sizes.getD q.1 0 then
            Except.ok
              { nodes := q.2.nodes.set p.1 q.1,
                sizes := q.2.sizes.set q.1 (q.2.sizes.getD q.1 0 + q.2.sizes.getD p.1 0) }
          else
            Except.ok
              { nodes := q.2.nodes.set q.1 p.1,
                sizes := q.2.sizes.set p.1 (q.2.sizes.getD p.1 0 + q.2.sizes.getD q.1 0) }
        else Except.error q.2
      else Except.error q.2

/-- The `Graph::root` loop runs at most one iteration (its body ends by
assigning the guard's two sides to each other), so any fuel of the form
`f + 2` computes the loop's exact result: the id itself when it is
self-parented, otherwise its grandparent, with `nodes[id]` repointed to
that grandparent. -/
theorem rootAux_two (nodes : List Nat) (id : Nat) (f : Nat) :
    rootAux nodes id id (f + 2) =
      if id = nodes.getD id 0 then (id, nodes)
      else
        ((nodes.set id (nodes.getD (nodes.getD id 0) 0)).getD id 0,
          nodes.set id (nodes.getD (nodes.getD id 0) 0)) := by
  by_cases h : id = nodes.getD id 0
  · rw [if_pos h, show f + 2 = (f + 1) + 1 from rfl, rootAux, if_neg (not_not_intro h)]
  · rw [if_neg h, show f + 2 = (f + 1) + 1 from rfl, rootAux, if_pos h]
    rw [rootAux, if_neg (not_not_intro rfl)]

/-- Reachable state with parent array `[2, 0, 3, 3]`, obtained from
`new 4` by `connect 0 1; connect 2 0; connect 3 0`.  All four nodes are
in one component (edges 1–0, 0–2, 2–3) whose only root is node 3. -/
def gBad : Graph :=
  (((Graph.new 4).connect 0 1).connect 2 0).connect 3 0

/-- Reachable chain `3 → 2 → 1 → 0` (parent array `[0, 0, 1, 2]`),
obtained from `new 4` by `connect 2 3; connect 1 2; connect 0 1`. -/
def gChain : Graph :=
  (((Graph.new 4).connect 2 3).connect 1 2).connect 0 1

/-- Reachable state with parent array `[3, 2, 3, 2]`: nodes 2 and 3
form a two-node parent cycle and no node of the component is a root. -/
def gCyc : Graph :=
  gBad.connect 1 0

/-- Reachable state `[2, 0, 3, 3, 4]` over five nodes: the four-node
component of `gBad` plus the isolated node 4. -/
def gBad5 : Graph :=
  (((Graph.new 5).connect 0 1).connect 2 0).connect 3 0

/-- Reachable state `[2, 2, 3, 2]`, obtained from `gBad` by
`connect 1 2`. -/
def gSeven : Graph :=
  gBad.connect 1 2

theorem reach_gBad : Reachable 4 gBad :=
  Reachable.connect 3 0
    (Reachable.connect 2 0
      (Reachable.connect 0 1 Reachable.new (by decide) (by decide))
      (by decide) (by decide))
    (by decide) (by decide)

theorem reach_gChain : Reachable 4 gChain :=
  Reachable.connect 0 1
    (Reachable.connect 1 2
      (Reachable.connect 2 3 Reachable.new (by decide) (by decide))
      (by decide) (by decide))
    (by decide) (by decide)

theorem reach_gCyc : Reachable 4 gCyc :=
  Reachable.connect 1 0 reach_gBad (by decide) (by decide)

theorem reach_gBad5 : Reachable 5 gBad5 :=
  Reachable.connect 3 0
    (Reachable.connect 2 0
      (Reachable.connect 0 1 Reachable.new (by decide) (by decide))
      (by decide) (by decide))
    (by decide) (by decide)

theorem reach_gSeven : Reachable 4 gSeven :=
  Reachable.connect 1 2 reach_gBad (by decide) (by decide)

/-- Claim C1: in the reachable state `gBad` (parents `[2, 0, 3, 3]`),
immediately after `connect 1 0`, `connected 1 0` returns `false` — the
guarantee "after `union(a, b)`, `connected(a, b)` is true" fails.  The
cause is the typo in `Graph::root` (`self.nodes[id]` where the
path-halving loop needs `self.nodes[root]`), which makes `root` stop at
the grandparent instead of the root. -/
theorem C1_connect_then_connected_false :
    Reachable 4 gBad ∧ ((gBad.connect 1 0).connected 1 0).1 = false :=
  ⟨reach_gBad, by decide⟩

/-- Claim C2: in the reachable chain `gChain` (parents `[0, 0, 1, 2]`),
`root 3` returns node 1, but `parent[1] = 0 ≠ 1`: the returned node is
not self-parented, hence not the representative the spec describes
(which is node 0).  `root` only hops to the grandparent once instead of
walking the chain to the root. -/
theorem C2_root_not_representative :
    Reachable 4 gChain ∧ (gChain.root 3).1 = 1 ∧ gChain.nodes.getD 1 0 ≠ 1 :=
  ⟨reach_gChain, by decide, by decide⟩

/-- Claim C3: the reachable state `gCyc` has parent array
`[3, 2, 3, 2]`: nodes 2 and 3 are a two-node parent cycle, so node 2
has no path to a root by repeated parent lookups, whatever the number
of steps — the forest invariant is violated in a reachable state. -/
theorem C3_cycle_reachable :
    Reachable 4 gCyc ∧ gCyc.nodes = [3, 2, 3, 2] ∧
      ∀ fuel, reachesRoot gCyc.nodes 2 fuel = false := by
  have key : ∀ f, reachesRoot [3, 2, 3, 2] 2 f = false ∧
      reachesRoot [3, 2, 3, 2] 3 f = false := by
    intro f
    induction f with
    | zero => exact ⟨rfl, rfl⟩
    | succ f ih =>
      refine ⟨?_, ?_⟩
      · rw [reachesRoot, if_neg (by decide)]
        exact ih.2
      · rw [reachesRoot, if_neg (by decide)]
        exact ih.1
  exact ⟨reach_gCyc, by decide, fun fuel => (key fuel).1⟩

/-- Claim C4: in the reachable state `gBad5` (parents
`[2, 0, 3, 3, 4]`), nodes 4 and 1 lie in different components (their
representatives are 4 and 3), yet `connect 4 1` leaves the number of
distinct roots at 2 instead of decreasing it to 1. -/
theorem C4_root_count_not_decreased :
    Reachable 5 gBad5 ∧
      specRepr gBad5.nodes 4 5 = some 4 ∧ specRepr gBad5.nodes 1 5 = some 3 ∧
      numRoots gBad5 = 2 ∧ numRoots (gBad5.connect 4 1) = 2 :=
  ⟨reach_gBad5, by decide, by decide, by decide, by decide⟩

/-- Claim C5: in the reachable state `gBad` (parents `[2, 0, 3, 3]`),
`connected 1 1` returns `false`, refuting reflexivity: the first root
resolution for node 1 returns its grandparent 2 and repoints node 1 to
it, the second then returns node 2's grandparent 3. -/
theorem C5_connected_self_false :
    Reachable 4 gBad ∧ (gBad.connected 1 1).1 = false :=
  ⟨reach_gBad, by decide⟩

/-- Claim C6: in the reachable state `gBad` (parents `[2, 0, 3, 3]`),
`connected 0 1` returns `true` but `connected 1 0` returns `false` from
the same state — symmetry fails because each call path-compresses in
argument order before comparing. -/
theorem C6_connected_not_symmetric :
    Reachable 4 gBad ∧
      (gBad.connected 0 1).1 = true ∧ (gBad.connected 1 0).1 = false :=
  ⟨reach_gBad, by decide, by decide⟩

/-- Claim C7: in the reachable state `gSeven` (parents `[2, 2, 3, 2]`),
after `connect 0 1` followed by `connect 1 3`, the query
`connected 0 3` returns `false` — transitivity after merges fails. -/
theorem C7_transitivity_fails :
    Reachable 4 gSeven ∧
      (((gSeven.connect 0 1).connect 1 3).connected 0 3).1 = false :=
  ⟨reach_gSeven, by decide⟩

/-- Claim C8: in the reachable state `gCyc` (parents `[3, 2, 3, 2]`),
node 2 is not a root, but after the single call `root 2` it is: the
call changes the set of roots (from none to `{2}` here), so `root` is
not the partition- and root-preserving read the spec describes. -/
theorem C8_root_changes_root_set :
    Reachable 4 gCyc ∧ gCyc.nodes.getD 2 0 ≠ 2 ∧ numRoots gCyc = 0 ∧
      ((gCyc.root 2).2).nodes.getD 2 0 = 2 ∧ numRoots (gCyc.root 2).2 = 1 :=
  ⟨reach_gCyc, by decide, by decide, by decide, by decide⟩

/-- All parent entries are valid node indices (Bool form, so that it
can be evaluated on concrete states). -/
def nodesInRange (g : Graph) : Bool :=
  g.nodes.all (fun x => decide (x < g.nodes.length))

/-- An out-of-range id makes the checked root loop fail at its very
first read, with the parent array untouched. -/
theorem rootCAux_oob (nodes : List Nat) (id root f : Nat) (h : nodes.length ≤ id) :
    rootCAux nodes id root (f + 1) = Except.error nodes := by
  rw [rootCAux, if_neg (not_lt.mpr h)]

/-- Checked `root` on an out-of-range id: detected error, state
untouched. -/
theorem rootC_oob (g : Graph) (id : Nat) (h : g.nodes.length ≤ id) :
    rootC g id = Except.error g := by
  unfold rootC
  rw [show g.nodes.length + 2 = (g.nodes.length + 1) + 1 from rfl,
    rootCAux_oob _ _ _ _ h]

/-- On a valid id whose parent entry is also in range, the checked root
loop succeeds and agrees with the total model. -/
theorem rootCAux_ok (nodes : List Nat) (id f : Nat) (hid : id < nodes.length)
    (hpid : nodes.getD id 0 < nodes.length) :
    rootCAux nodes id id (f + 2) = Except.ok (rootAux nodes id id (f + 2)) := by
  rw [rootAux_two]
  by_cases h : id = nodes.getD id 0
  · rw [if_pos h, show f + 2 = (f + 1) + 1 from rfl, rootCAux, if_pos hid,
      if_neg (not_not_intro h)]
  · rw [if_neg h, show f + 2 = (f + 1) + 1 from rfl, rootCAux, if_pos hid, if_pos h,
      if_pos hid, if_pos hpid]
    show rootCAux (nodes.set id (nodes.getD (nodes.getD id 0) 0)) id
        ((nodes.set id (nodes.getD (nodes.getD id 0) 0)).getD id 0) (f + 1) = _
    rw [rootCAux]
    rw [if_pos (by rw [List.length_set]; exact hid), if_neg (not_not_intro rfl)]

/-- Checked `root` agrees with the total model on in-range input. -/
theorem rootC_ok (g : Graph) (id : Nat) (hid : id < g.nodes.length)
    (hpid : g.nodes.getD id 0 < g.nodes.length) :
    rootC g id = Except.ok (g.root id) := by
  unfold rootC Graph.root
  rw [rootCAux_ok _ _ _ hid hpid]

/-- `root` never changes the length of the parent array. -/
theorem root_nodes_length (g : Graph) (id : Nat) :
    (g.root id).2.nodes.length = g.nodes.length := by
  unfold Graph.root
  rw [rootAux_two]
  by_cases h : id = g.nodes.getD id 0
  · rw [if_pos h]
  · rw [if_neg h]
    exact List.length_set _ _ _

/-- `getD _ 0` over an all-zero list is 0, in and out of range. -/
theorem getD_zero_of_all_zero {l : List Nat} (h : ∀ s ∈ l, s = 0) (i : Nat) :
    l.getD i 0 = 0 := by
  rw [List.getD_eq_getElem?_getD]
  by_cases hi : i < l.length
  · rw [List.getElem?_eq_getElem hi]
    exact h _ (List.getElem_mem hi)
  · rw [List.getElem?_eq_none (not_lt.mp hi)]
    rfl

/-- `connect` preserves the all-zero size array: the only write stores
the sum of two entries of an all-zero array. -/
theorem connect_sizes_zero {g : Graph} (hz : ∀ s ∈ g.sizes, s = 0) (a b : Nat) :
    ∀ s ∈ (g.connect a b).sizes, s = 0 := by
  intro s hs
  simp only [Graph.connect] at hs
  split at hs
  · exact hz s hs
  · split at hs
    · rcases List.mem_or_eq_of_mem_set hs with h' | h'
      · exact hz s h'
      · rw [h', show ((g.root a).2.root b).2.sizes = g.sizes from rfl,
          getD_zero_of_all_zero hz, getD_zero_of_all_zero hz]
    · rcases List.mem_or_eq_of_mem_set hs with h' | h'
      · exact hz s h'
      · rw [h', show ((g.root a).2.root b).2.sizes = g.sizes from rfl,
          getD_zero_of_all_zero hz, getD_zero_of_all_zero hz]

/-- In every reachable state the size array is all zero: `new` fills it
with zeros, `connected` never writes it, `connect` only adds zeros. -/
theorem reachable_sizes_zero {n : Nat} {g : Graph} (h : Reachable n g) :
    ∀ s ∈ g.sizes, s = 0 := by
  induction h with
  | new =>
    intro s hs
    exact List.eq_of_mem_replicate hs
  | connect a b hr ha hb ih => exact connect_sizes_zero ih a b
  | connected a b hr ha hb ih => exact ih

/-- Reachable chain `2 → 1 → 0` over three nodes (parents `[0, 0, 1]`),
obtained from `new 3` by `connect 1 2; connect 0 1`. -/
def gChain3 : Graph :=
  ((Graph.new 3).connect 1 2).connect 0 1

theorem reach_gChain3 : Reachable 3 gChain3 :=
  Reachable.connect 0 1
    (Reachable.connect 1 2 Reachable.new (by decide) (by decide))
    (by decide) (by decide)

/-- Claim C9, counterexample to "the structure's state is as if the
operation never ran": in the reachable state `gChain3` (parents
`[0, 0, 1]`), `connected 2 99` and `connect 2 99` both fail with the
detected index-out-of-bounds error, but the failure state has
`nodes = [0, 0, 0]`: the path compression performed while resolving the
valid first argument persists. -/
theorem C9_compression_persists_before_panic :
    Reachable 3 gChain3 ∧ gChain3.nodes = [0, 0, 1] ∧
    connectedC gChain3 2 99 =
      Except.error { nodes := [0, 0, 0], sizes := [0, 0, 0] } ∧
    connectC gChain3 2 99 =
      Except.error { nodes := [0, 0, 0], sizes := [0, 0, 0] } ∧
    ({ nodes := [0, 0, 0], sizes := [0, 0, 0] } : Graph) ≠ gChain3 :=
  ⟨reach_gChain3, by decide, by rfl, by rfl, by decide⟩

/-- Claim C9 as amended: calling `connected` or `connect` with any id
outside `[0, n)` fails with the detected index-out-of-bounds condition
(never an unchecked access), and no link between components is written;
the state at the failure is the original one when the first id is
already out of range, and otherwise the original state after the path
compression of resolving the first id — not necessarily the untouched
original state. -/
theorem C9_oob_detected_no_link (g : Graph) (a b : Nat)
    (hinv : nodesInRange g = true)
    (hoob : g.nodes.length ≤ a ∨ g.nodes.length ≤ b) :
    connectedC g a b =
      Except.error (if g.nodes.length ≤ a then g else (g.root a).2) ∧
    connectC g a b =
      Except.error (if g.nodes.length ≤ a then g else (g.root a).2) := by
  by_cases ha : g.nodes.length ≤ a
  · rw [if_pos ha]
    constructor
    · simp only [connectedC, rootC_oob g a ha]
    · simp only [connectC, rootC_oob g a ha]
  · have ha' : a < g.nodes.length := not_le.mp ha
    have hb : g.nodes.length ≤ b := hoob.resolve_left ha
    have hinv' : g.nodes.all (fun x => decide (x < g.nodes.length)) = true := hinv
    have hpid : g.nodes.getD a 0 < g.nodes.length := by
      have hmem : g.nodes.getD a 0 ∈ g.nodes := by
        rw [List.getD_eq_getElem?_getD, List.getElem?_eq_getElem ha']
        exact List.getElem_mem ha'
      exact of_decide_eq_true (List.all_eq_true.mp hinv' _ hmem)
    rw [if_neg ha]
    have h1 := rootC_ok g a ha' hpid
    have h2 : rootC (g.root a).2 b = Except.error (g.root a).2 :=
      rootC_oob _ _ (by rw [root_nodes_length]; exact hb)
    constructor
    · simp only [connectedC, h1, h2]
    · simp only [connectC, h1, h2]

/-- Witness for `C9_oob_detected_no_link` at the reachable state
`gChain3` with the out-of-range id 99. -/
theorem C9_oob_detected_no_link_witness :
    nodesInRange gChain3 = true ∧
    (gChain3.nodes.length ≤ 2 ∨ gChain3.nodes.length ≤ 99) ∧
    connectedC gChain3 2 99 =
      Except.error (if gChain3.nodes.length ≤ 2 then gChain3 else (gChain3.root 2).2) ∧
    connectC gChain3 2 99 =
      Except.error (if gChain3.nodes.length ≤ 2 then gChain3 else (gChain3.root 2).2) :=
  ⟨by decide, by decide,
    (C9_oob_detected_no_link gChain3 2 99 (by decide) (by decide)).1,
    (C9_oob_detected_no_link gChain3 2 99 (by decide) (by decide)).2⟩

/-- Claim C10: in every reachable state the size array is identically
zero, so the union-by-size comparison in `connect` is always the tie
`0 < 0` and, whenever the two resolved roots differ, `connect a b`
attaches `b`'s resolved root under `a`'s resolved root, regardless of
the actual node counts of the two trees. -/
theorem C10_sizes_zero_union_ties (n : Nat) (g : Graph) (h : Reachable n g) :
    g.sizes = List.replicate g.sizes.length 0 ∧
    ∀ a b, (g.root a).1 ≠ ((g.root a).2.root b).1 →
      (g.connect a b).nodes =
        ((g.root a).2.root b).2.nodes.set ((g.root a).2.root b).1 (g.root a).1 := by
  have hz := reachable_sizes_zero h
  refine ⟨List.eq_replicate_iff.mpr ⟨rfl, hz⟩, ?_⟩
  intro a b hne
  have hlt : ¬ (((g.root a).2.root b).2.sizes.getD (g.root a).1 0 <
      ((g.root a).2.root b).2.sizes.getD ((g.root a).2.root b).1 0) := by
    rw [show ((g.root a).2.root b).2.sizes = g.sizes from rfl,
      getD_zero_of_all_zero hz, getD_zero_of_all_zero hz]
    exact lt_irrefl 0
  simp only [Graph.connect]
  rw [if_neg hne, if_neg hlt]

/-- Witness for `C10_sizes_zero_union_ties` at `new 2` with the merge
`connect 0 1`. -/
theorem C10_sizes_zero_union_ties_witness :
    (Graph.new 2).sizes = List.replicate (Graph.new 2).sizes.length 0 ∧
    ((Graph.new 2).root 0).1 ≠ (((Graph.new 2).root 0).2.root 1).1 ∧
    ((Graph.new 2).connect 0 1).nodes =
      (((Graph.new 2).root 0).2.root 1).2.nodes.set
        (((Graph.new 2).root 0).2.root 1).1 ((Graph.new 2).root 0).1 :=
  ⟨(C10_sizes_zero_union_ties 2 (Graph.new 2) Reachable.new).1, by decide,
    (C10_sizes_zero_union_ties 2 (Graph.new 2) Reachable.new).2 0 1 (by decide)⟩
